import Mathlib

/-!
Shallow embedding of the toy-robot-on-grid program and proofs about it.

The embedding mirrors, definition by definition, the Python sources:
`toy_robot/utils.py` (Direction, Coordinates), `toy_robot/grid.py`
(Cell neighbour links, SquareGrid construction and queries) and
`toy_robot/toy_robot.py` (command parsing and command execution).
Python exceptions are modelled with `Except Unit`; Python `None` with
`Option`; the mutable neighbour dictionaries of the cells with a single
finite map from cell coordinates and direction to the linked cell's
coordinates.
-/

namespace ToyRobot

/-- `Direction` from `toy_robot/utils.py`: the four facings of the robot. -/
inductive Direction : Type
  | WEST
  | EAST
  | NORTH
  | SOUTH
deriving DecidableEq, Repr

/-- `Direction.opposite` from `toy_robot/utils.py`. -/
def Direction.opposite : Direction → Direction
  | .WEST => .EAST
  | .EAST => .WEST
  | .NORTH => .SOUTH
  | .SOUTH => .NORTH

/-- `Direction.counter_clockwise` from `toy_robot/utils.py`. -/
def Direction.counter_clockwise : Direction → Direction
  | .WEST => .SOUTH
  | .SOUTH => .EAST
  | .EAST => .NORTH
  | .NORTH => .WEST

/-- `Direction.clockwise` from `toy_robot/utils.py`. -/
def Direction.clockwise : Direction → Direction
  | .WEST => .NORTH
  | .NORTH => .EAST
  | .EAST => .SOUTH
  | .SOUTH => .WEST

/-- `Coordinates` from `toy_robot/utils.py`: a pair of Python integers. -/
structure Coordinates : Type where
  x : Int
  y : Int
deriving DecidableEq, Repr

/-!
Grid layer, from `toy_robot/grid.py`.

Every cell of `SquareGrid(n)` is created as `Cell(x, y)` for `x, y` in
`range(n)`, so a cell is identified by its pair of natural coordinates and
the per-cell `_neighbours` dictionaries together form one finite map from
`(x, y, direction)` to the coordinates of the linked neighbour cell.
-/

/-- The neighbour dictionaries of all cells of a grid, as one map: for the
cell at natural coordinates `(x, y)` and a direction, the coordinates of the
neighbouring cell linked in that direction, or `none` when the dictionary has
no entry there. -/
def NeighbourMap : Type := Nat → Nat → Direction → Option (Nat × Nat)

/-- A dictionary write: the map with the entry at `(a, b, d)` set to `v`. -/
def NeighbourMap.write (m : NeighbourMap) (a b : Nat) (d : Direction)
    (v : Option (Nat × Nat)) : NeighbourMap :=
  fun x y e => if x = a ∧ y = b ∧ e = d then v else m x y e

/-- `Cell.set_neighbour` from `toy_robot/grid.py`: raises (`Except.error`)
when the cell at `(a, b)` already has a neighbour in direction `d`; otherwise
records the forward link and, unconditionally, the reverse link on the
neighbour `(a2, b2)` in the opposite direction. -/
def set_neighbour (m : NeighbourMap) (a b : Nat) (d : Direction)
    (a2 b2 : Nat) : Except Unit NeighbourMap :=
  if (m a b d).isSome then .error ()
  else .ok (((m.write a b d (some (a2, b2))).write a2 b2 d.opposite (some (a, b))))

/-- The body of the nested loops of `SquareGrid._initialize_neighbors`: the
work done for the cell at `(x, y)` on a grid of size `n`. -/
def neighbourStep (n x y : Nat) (m : NeighbourMap) : Except Unit NeighbourMap := do
  let m1 ← if x + 1 < n then set_neighbour m x y .EAST (x + 1) y else pure m
  if y + 1 < n then set_neighbour m1 x y .NORTH x (y + 1) else pure m1

/-- `SquareGrid._initialize_neighbors` from `toy_robot/grid.py`: the nested
`for x in range(size): for y in range(size)` loops over the freshly created
cells, starting from empty neighbour dictionaries.  (The Python guard
`x < self._size - 1` is written `x + 1 < n`; the two agree on every loop
index since `x` ranges over `range(n)`.) -/
def setupNeighbours (n : Nat) : Except Unit NeighbourMap :=
  (List.range n).foldlM
    (fun m x => (List.range n).foldlM (fun m y => neighbourStep n x y m) m)
    (fun _ _ _ => none)

/-- Python list indexing for a list of length `n`: in-range indices are taken
as they are, negative indices wrap once from the end, anything else raises
`IndexError`. -/
def pyIndex (n : Nat) (i : Int) : Except Unit Nat :=
  if 0 ≤ i ∧ i < (n : Int) then .ok i.toNat
  else if -(n : Int) ≤ i ∧ i < 0 then .ok (i + (n : Int)).toNat
  else .error ()

/-- `SquareGrid.get_next_cell_coordinates` from `toy_robot/grid.py`:
`self._cells[coordinates.x][coordinates.y].get_neighbour(direction)`, then
`None` or the neighbour cell's coordinates.  The two list indexings follow
Python semantics (`pyIndex`), the dictionary read is the map lookup. -/
def get_next_cell_coordinates (n : Nat) (m : NeighbourMap) (c : Coordinates)
    (d : Direction) : Except Unit (Option Coordinates) := do
  let x ← pyIndex n c.x
  let y ← pyIndex n c.y
  match m x y d with
  | none => pure none
  | some (a, b) => pure (some ⟨(a : Int), (b : Int)⟩)

/-- `SquareGrid.is_valid_cell` from `toy_robot/grid.py`:
`coordinates.x < self._size and coordinates.y < self._size`. -/
def is_valid_cell (n : Nat) (c : Coordinates) : Bool :=
  c.x < (n : Int) && c.y < (n : Int)

/-- The neighbour map of `SquareGrid(n)` as built by the constructor
(`setupNeighbours` is shown below to always succeed, so the fallback empty
map of `getD` is never used). -/
def gridOf (n : Nat) : NeighbourMap :=
  (setupNeighbours n).toOption.getD (fun _ _ _ => none)

/-- Pointwise equality of neighbour maps. -/
def MapEq (m m2 : NeighbourMap) : Prop :=
  ∀ x y d, m x y d = m2 x y d

/-- Closed form of the neighbour map the `SquareGrid(n)` constructor builds:
east/west links between horizontally adjacent cells, north/south links
between vertically adjacent cells, nothing across the boundary. -/
def neighboursSpec (n : Nat) : NeighbourMap := fun x y d =>
  match d with
  | .EAST => if y < n ∧ x + 1 < n then some (x + 1, y) else none
  | .WEST => if y < n ∧ x < n ∧ 1 ≤ x then some (x - 1, y) else none
  | .NORTH => if x < n ∧ y + 1 < n then some (x, y + 1) else none
  | .SOUTH => if x < n ∧ y < n ∧ 1 ≤ y then some (x, y - 1) else none

/-- The neighbour map part-way through `SquareGrid._initialize_neighbors`:
the outer loop has fully processed the cells with first coordinate `< k`, and
the inner loop at `k` has processed second coordinates `< j`.  A link appears
exactly when the loop iteration that writes it has already run. -/
def stageSpec (n k j : Nat) : NeighbourMap := fun x y d =>
  match d with
  | .EAST =>
      if y < n ∧ x + 1 < n ∧ (x < k ∨ (x = k ∧ y < j)) then some (x + 1, y) else none
  | .WEST =>
      if y < n ∧ x < n ∧ 1 ≤ x ∧ (x - 1 < k ∨ (x - 1 = k ∧ y < j)) then some (x - 1, y)
      else none
  | .NORTH =>
      if y + 1 < n ∧ x < n ∧ (x < k ∨ (x = k ∧ y < j)) then some (x, y + 1) else none
  | .SOUTH =>
      if y < n ∧ x < n ∧ 1 ≤ y ∧ (x < k ∨ (x = k ∧ y - 1 < j)) then some (x, y - 1)
      else none

lemma stageSpec_zero (n : Nat) : MapEq (fun _ _ _ => none) (stageSpec n 0 0) := by
  intro x y d
  cases d <;> simp only [stageSpec] <;> split_ifs <;> first | rfl | omega

lemma stageSpec_next_row (n k : Nat) :
    MapEq (stageSpec n k n) (stageSpec n (k + 1) 0) := by
  intro x y d
  cases d <;> simp only [stageSpec] <;> split_ifs <;> first | rfl | omega

lemma stageSpec_final (n : Nat) : MapEq (stageSpec n n 0) (neighboursSpec n) := by
  intro x y d
  cases d <;> simp only [stageSpec, neighboursSpec] <;> split_ifs <;>
    first | rfl | omega

lemma exceptBind_ok {α β : Type} (a : α) (f : α → Except Unit β) :
    (Except.ok a >>= f) = f a := rfl

lemma set_neighbour_ok {m : NeighbourMap} {a b : Nat} {d : Direction} {a2 b2 : Nat}
    (h : m a b d = none) :
    set_neighbour m a b d a2 b2 =
      .ok ((m.write a b d (some (a2, b2))).write a2 b2 d.opposite (some (a, b))) := by
  unfold set_neighbour
  rw [h]
  rfl

lemma neighbourStep_stage {n k j : Nat} {m : NeighbourMap}
    (hm : ∀ x y d, m x y d = stageSpec n k j x y d) (hk : k < n) (hj : j < n) :
    ∃ m2, neighbourStep n k j m = .ok m2 ∧
      ∀ x y d, m2 x y d = stageSpec n k (j + 1) x y d := by
  have hE : m k j .EAST = none := by
    rw [hm k j .EAST]; simp only [stageSpec]; exact if_neg (by omega)
  by_cases h1 : k + 1 < n <;> by_cases h2 : j + 1 < n
  · -- east and north links both written
    have hN : ((m.write k j .EAST (some (k+1, j))).write (k+1) j .WEST (some (k, j))) k j
        .NORTH = none := by
      simp only [NeighbourMap.write]
      rw [if_neg (by simp), if_neg (by simp), hm k j .NORTH]
      simp only [stageSpec]; exact if_neg (by omega)
    refine ⟨((((m.write k j .EAST (some (k+1, j))).write (k+1) j .WEST (some (k, j))).write
      k j .NORTH (some (k, j+1))).write k (j+1) .SOUTH (some (k, j))), ?_, ?_⟩
    · unfold neighbourStep
      simp only [if_pos h1, set_neighbour_ok hE, Direction.opposite, exceptBind_ok, if_pos h2]
      rw [set_neighbour_ok hN]
      rfl
    · intro x y d
      cases d <;> simp [NeighbourMap.write, stageSpec, hm] <;> split_ifs <;>
        first
          | rfl
          | omega
          | (simp only [Option.some.injEq, Prod.mk.injEq]; omega)
  · -- only the east link written
    refine ⟨((m.write k j .EAST (some (k+1, j))).write (k+1) j .WEST (some (k, j))), ?_, ?_⟩
    · unfold neighbourStep
      simp only [if_pos h1, set_neighbour_ok hE, Direction.opposite, exceptBind_ok, if_neg h2]
      rfl
    · intro x y d
      cases d <;> simp [NeighbourMap.write, stageSpec, hm] <;> split_ifs <;>
        first
          | rfl
          | omega
          | (simp only [Option.some.injEq, Prod.mk.injEq]; omega)
  · -- only the north link written
    have hN : m k j .NORTH = none := by
      rw [hm k j .NORTH]; simp only [stageSpec]; exact if_neg (by omega)
    refine ⟨((m.write k j .NORTH (some (k, j+1))).write k (j+1) .SOUTH (some (k, j))), ?_, ?_⟩
    · unfold neighbourStep
      simp only [if_neg h1, pure_bind, if_pos h2]
      rw [set_neighbour_ok hN]
      rfl
    · intro x y d
      cases d <;> simp [NeighbourMap.write, stageSpec, hm] <;> split_ifs <;>
        first
          | rfl
          | omega
          | (simp only [Option.some.injEq, Prod.mk.injEq]; omega)
  · -- nothing written
    refine ⟨m, ?_, ?_⟩
    · unfold neighbourStep
      simp only [if_neg h1, pure_bind, if_neg h2]
      rfl
    · intro x y d
      rw [hm x y d]
      cases d <;> simp only [stageSpec] <;> split_ifs <;> first | rfl | omega

lemma innerLoop_stage {n k : Nat} (hk : k < n) :
    ∀ (j a : Nat) (m : NeighbourMap), a + j = n →
      (∀ x y d, m x y d = stageSpec n k a x y d) →
      ∃ m2, (List.range' a j).foldlM (fun m y => neighbourStep n k y m) m = .ok m2 ∧
        ∀ x y d, m2 x y d = stageSpec n k n x y d := by
  intro j
  induction j with
  | zero =>
      intro a m ha hm
      exact ⟨m, rfl, by rw [show a = n from by omega] at hm; exact hm⟩
  | succ j ih =>
      intro a m ha hm
      obtain ⟨m1, hstep, hm1⟩ := neighbourStep_stage hm hk (by omega)
      rw [List.range'_succ]
      simp only [List.foldlM_cons, hstep, exceptBind_ok]
      exact ih (a + 1) m1 (by omega) hm1

lemma outerLoop_stage (n : Nat) :
    ∀ (j a : Nat) (m : NeighbourMap), a + j = n →
      (∀ x y d, m x y d = stageSpec n a 0 x y d) →
      ∃ m2, (List.range' a j).foldlM
          (fun m x => (List.range n).foldlM (fun m y => neighbourStep n x y m) m) m = .ok m2 ∧
        ∀ x y d, m2 x y d = stageSpec n n 0 x y d := by
  intro j
  induction j with
  | zero =>
      intro a m ha hm
      exact ⟨m, rfl, by rw [show a = n from by omega] at hm; exact hm⟩
  | succ j ih =>
      intro a m ha hm
      obtain ⟨m1, hin, hm1⟩ := innerLoop_stage (show a < n by omega) n 0 m (by omega) hm
      rw [← List.range_eq_range' n] at hin
      have hnext : ∀ x y d, m1 x y d = stageSpec n (a + 1) 0 x y d :=
        fun x y d => (hm1 x y d).trans (stageSpec_next_row n a x y d)
      rw [List.range'_succ]
      simp only [List.foldlM_cons, hin, exceptBind_ok]
      exact ih (a + 1) m1 (by omega) hnext

lemma setupNeighbours_ok (n : Nat) :
    ∃ m, setupNeighbours n = .ok m ∧ ∀ x y d, m x y d = neighboursSpec n x y d := by
  obtain ⟨m, hfold, hm⟩ :=
    outerLoop_stage n n 0 (fun _ _ _ => none) (by omega) (stageSpec_zero n)
  rw [← List.range_eq_range' n] at hfold
  exact ⟨m, hfold, fun x y d => (hm x y d).trans (stageSpec_final n x y d)⟩

lemma setupNeighbours_eq_gridOf (n : Nat) : setupNeighbours n = .ok (gridOf n) := by
  obtain ⟨m, h, _⟩ := setupNeighbours_ok n
  rw [h]
  unfold gridOf
  rw [h]
  rfl

lemma gridOf_spec (n : Nat) (x y : Nat) (d : Direction) :
    gridOf n x y d = neighboursSpec n x y d := by
  obtain ⟨m, h, hm⟩ := setupNeighbours_ok n
  unfold gridOf
  rw [h]
  exact hm x y d

lemma neighboursSpec_range {n x y : Nat} {d : Direction} {a b : Nat}
    (h : neighboursSpec n x y d = some (a, b)) : a < n ∧ b < n := by
  cases d <;> simp only [neighboursSpec] at h <;> split_ifs at h <;>
    simp only [Option.some.injEq, Prod.mk.injEq] at h <;> omega

/-!
Command layer, from `toy_robot/toy_robot.py`.
-/

/-- `RobotRotation` from `toy_robot/toy_robot.py`. -/
inductive RobotRotation : Type
  | RIGHT
  | LEFT
deriving DecidableEq, Repr

/-- The closed command hierarchy of `toy_robot/toy_robot.py`:
`NopRobotCommand`, `PlaceRobotCommand` (with its stored coordinates and
direction), `MoveRobotCommand`, `TurnRobotCommand` (with its stored
rotation) and `ReportRobotCommand`. -/
inductive RobotCommand : Type
  | nop
  | place (coordinates : Coordinates) (direction : Direction)
  | move
  | turn (rotation : RobotRotation)
  | report
deriving DecidableEq, Repr

/-- Python `str.split(sep)` with a one-character separator, on the list of
characters: split at every occurrence, keeping empty fields (so the result
is never the empty list). -/
def splitChars (sep : Char) : List Char → List Char → List (List Char)
  | [], acc => [acc.reverse]
  | c :: cs, acc =>
      if c = sep then acc.reverse :: splitChars sep cs []
      else splitChars sep cs (c :: acc)

/-- Python `s.split(sep)` for a one-character separator `sep`. -/
def pySplit (s : String) (sep : Char) : List String :=
  (splitChars sep s.toList []).map List.asString

/-- Python `Direction.__members__` lookup: the member of `Direction` whose
exact name is `s`, if any. -/
def directionOfName (s : String) : Option Direction :=
  if s = "WEST" then some .WEST
  else if s = "EAST" then some .EAST
  else if s = "NORTH" then some .NORTH
  else if s = "SOUTH" then some .SOUTH
  else none

/-- Python `str.isdigit()` on the ASCII strings the parser sees: non-empty
and every character a decimal digit. -/
def isdigit (s : String) : Bool :=
  !s.toList.isEmpty && s.toList.all Char.isDigit

/-- Python `int(s)` on an all-digits string: its base-10 value. -/
def strToNat (s : String) : Nat :=
  s.toList.foldl (fun n c => 10 * n + (c.toNat - 48)) 0

/-- `RobotApiHandler._generate_place_command`: requires the split line to be
exactly `[PLACE, remainder]`, splits the remainder on commas, checks the
first two fields with `isdigit` and the third against the direction names.
Each Python `raise` (including the `IndexError` of `params[1]`/`params[2]`
when fewer than three fields are present) is an `Except.error`; checks run
in the source's order. -/
def generatePlaceCommand (data : List String) : Except Unit RobotCommand :=
  if data.length ≠ 2 then .error ()
  else
    let params := pySplit (data.getD 1 "") ','
    if !isdigit (params.getD 0 "") then .error ()
    else if params.length < 2 then .error ()
    else if !isdigit (params.getD 1 "") then .error ()
    else if params.length < 3 then .error ()
    else
      match directionOfName (params.getD 2 "") with
      | none => .error ()
      | some d =>
          .ok (.place ⟨(strToNat (params.getD 0 "") : Int),
            (strToNat (params.getD 1 "") : Int)⟩ d)

/-- `RobotApiHandler._generate_move_command`: the split line must be the bare
keyword. -/
def generateMoveCommand (data : List String) : Except Unit RobotCommand :=
  if data.length ≠ 1 then .error () else .ok .move

/-- `RobotApiHandler._generate_turn_command`: the split line must be the bare
keyword, which must be a `RobotRotation` member name. -/
def generateTurnCommand (data : List String) : Except Unit RobotCommand :=
  if data.length ≠ 1 then .error ()
  else if data.getD 0 "" = "RIGHT" then .ok (.turn .RIGHT)
  else if data.getD 0 "" = "LEFT" then .ok (.turn .LEFT)
  else .error ()

/-- `RobotApiHandler._generate_report_command`: the split line must be the
bare keyword. -/
def generateReportCommand (data : List String) : Except Unit RobotCommand :=
  if data.length ≠ 1 then .error () else .ok .report

/-- `RobotApiHandler.generate_command`: split the raw line on single spaces,
dispatch on the keyword through `api_generator_map`, and catch every
exception of the generators (and the unknown-keyword `RuntimeError`),
normalising it to a Nop command. -/
def generateCommand (command : String) : RobotCommand :=
  let data := pySplit command ' '
  let r : Except Unit RobotCommand :=
    if data.getD 0 "" = "PLACE" then generatePlaceCommand data
    else if data.getD 0 "" = "MOVE" then generateMoveCommand data
    else if data.getD 0 "" = "LEFT" then generateTurnCommand data
    else if data.getD 0 "" = "RIGHT" then generateTurnCommand data
    else if data.getD 0 "" = "REPORT" then generateReportCommand data
    else .error ()
  match r with
  | .ok c => c
  | .error _ => .nop

/-- The mutable fields of `Robot`: optional coordinates and optional
direction (`None`/`None` before the first successful Place). -/
structure RobotState : Type where
  coordinates : Option Coordinates
  direction : Option Direction
deriving DecidableEq, Repr

/-- `Robot.is_on_grid`: both fields present. -/
def is_on_grid (s : RobotState) : Bool :=
  s.coordinates.isSome && s.direction.isSome

/-- A fresh `Robot`: no coordinates, no direction. -/
def initialRobot : RobotState :=
  ⟨none, none⟩

/-- The `execute` methods of the five command classes of
`toy_robot/toy_robot.py`, against a robot holding a grid of size `n` with
neighbour map `m`: the returned Bool is the Python return value, the
returned state the robot's fields afterwards.  An uncaught Python exception
(only possible in Move's grid query, via list indexing) is `Except.error`. -/
def executeCommand (n : Nat) (m : NeighbourMap) (c : RobotCommand) (s : RobotState) :
    Except Unit (Bool × RobotState) :=
  match c with
  | .nop => .ok (true, s)
  | .place co d =>
      if is_valid_cell n co then .ok (true, ⟨some co, some d⟩) else .ok (false, s)
  | .move =>
      match s.coordinates, s.direction with
      | some co, some d => do
          let r ← get_next_cell_coordinates n m co d
          match r with
          | none => .ok (false, s)
          | some c2 => .ok (true, ⟨some c2, some d⟩)
      | _, _ => .ok (false, s)
  | .turn rot =>
      match s.coordinates, s.direction with
      | some co, some d =>
          .ok (true, ⟨some co,
            some (if rot = .RIGHT then d.clockwise else d.counter_clockwise)⟩)
      | _, _ => .ok (false, s)
  | .report =>
      match s.coordinates, s.direction with
      | some _, some _ => .ok (true, s)
      | _, _ => .ok (false, s)

/-- `Robot.spin` over a fixed list of commands: execute them in order,
ignoring each command's boolean result (as the drive loop does). -/
def runCommands (n : Nat) (m : NeighbourMap) (cs : List RobotCommand)
    (s : RobotState) : Except Unit RobotState :=
  cs.foldlM (fun s c => (executeCommand n m c s).map Prod.snd) s

/-- Whether an `Except` computation finished without raising. -/
def finishes {α : Type} : Except Unit α → Bool
  | .ok _ => true
  | .error _ => false

/-- The robot is unplaced, or its coordinates name a cell of the `n × n`
grid. -/
def withinGrid (n : Nat) (s : RobotState) : Bool :=
  match s.coordinates with
  | none => true
  | some c => (0 ≤ c.x && c.x < (n : Int)) && (0 ≤ c.y && c.y < (n : Int))

/-!
Helper lemmas shared by the claim theorems.
-/

lemma pyIndex_coe {n x : Nat} (hx : x < n) : pyIndex n (x : Int) = .ok x := by
  unfold pyIndex
  rw [if_pos (by constructor <;> omega)]
  simp

lemma get_next_gridOf (n x y : Nat) (hx : x < n) (hy : y < n) (d : Direction) :
    get_next_cell_coordinates n (gridOf n) ⟨(x : Int), (y : Int)⟩ d =
      .ok ((neighboursSpec n x y d).map (fun p => ⟨(p.1 : Int), (p.2 : Int)⟩)) := by
  unfold get_next_cell_coordinates
  rw [show (⟨(x : Int), (y : Int)⟩ : Coordinates).x = (x : Int) from rfl,
    show (⟨(x : Int), (y : Int)⟩ : Coordinates).y = (y : Int) from rfl,
    pyIndex_coe hx, exceptBind_ok, pyIndex_coe hy, exceptBind_ok, gridOf_spec]
  cases hnn : neighboursSpec n x y d with
  | none => rfl
  | some p => cases p with | mk a b => rfl

/-!
The claims.
-/

/-- C6: the direction algebra — `clockwise` four times is the identity,
`clockwise` and `counter_clockwise` are mutual inverses, `opposite` is
`clockwise` twice, and `opposite` is an involution. -/
theorem direction_rotation_algebra (d : Direction) :
    d.clockwise.clockwise.clockwise.clockwise = d ∧
    d.clockwise.counter_clockwise = d ∧
    d.counter_clockwise.clockwise = d ∧
    d.opposite = d.clockwise.clockwise ∧
    d.opposite.opposite = d := by
  cases d <;> exact ⟨rfl, rfl, rfl, rfl, rfl⟩

/-- C1: evaluation of `is_valid_cell` at negative coordinates on the 5×5
grid of the reference configuration.  The code checks only the upper bounds,
so both queries answer `true`, where the specified invariant
(`0 <= x < size and 0 <= y < size`) demands `false`. -/
theorem is_valid_cell_accepts_negative :
    is_valid_cell 5 ⟨-1, 0⟩ = true ∧ is_valid_cell 5 ⟨0, -1⟩ = true ∧
    is_valid_cell 5 ⟨-3, -7⟩ = true := by
  decide

/-- C4: executing `Place(co, d)` returns `true` and sets both coordinates
and direction exactly when `is_valid_cell` accepts `co`; otherwise it
returns `false` and leaves the whole state unchanged.  No exception can
escape either way. -/
theorem place_execute_spec (n : Nat) (m : NeighbourMap) (co : Coordinates)
    (d : Direction) (s : RobotState) :
    (executeCommand n m (.place co d) s = .ok (true, ⟨some co, some d⟩) ∧
      is_valid_cell n co = true) ∨
    (executeCommand n m (.place co d) s = .ok (false, s) ∧
      is_valid_cell n co = false) := by
  cases hv : is_valid_cell n co
  · right
    exact ⟨by simp [executeCommand, hv], rfl⟩
  · left
    exact ⟨by simp [executeCommand, hv], rfl⟩

/-- C2 counter-evidence: a PLACE line whose remainder has four
comma-separated fields is not rejected — the parser returns a Place command
built from the first three fields, not Nop. -/
theorem place_extra_fields_accepted :
    generateCommand "PLACE 1,2,NORTH,FOO" = .place ⟨1, 2⟩ .NORTH ∧
    generateCommand "PLACE 1,2,NORTH,FOO" ≠ .nop := by
  decide

/-- The conditions the PLACE generator actually enforces on the
comma-separated fields of the remainder: at least three fields, the first
two all-digits, the third an exact `Direction` member name (fields beyond
the third are never examined). -/
def placeArgsAccepted (ps : List String) : Bool :=
  isdigit (ps.getD 0 "") && decide (2 ≤ ps.length) && isdigit (ps.getD 1 "") &&
  decide (3 ≤ ps.length) && (directionOfName (ps.getD 2 "")).isSome

lemma generatePlaceCommand_pair (d0 d1 : String) :
    (placeArgsAccepted (pySplit d1 ',') = false → generatePlaceCommand [d0, d1] = .error ()) ∧
    (placeArgsAccepted (pySplit d1 ',') = true →
      ∃ d, directionOfName ((pySplit d1 ',').getD 2 "") = some d ∧
        generatePlaceCommand [d0, d1] =
          .ok (.place ⟨(strToNat ((pySplit d1 ',').getD 0 "") : Int),
            (strToNat ((pySplit d1 ',').getD 1 "") : Int)⟩ d)) := by
  have hred : generatePlaceCommand [d0, d1] =
      (if !isdigit ((pySplit d1 ',').getD 0 "") then .error ()
       else if (pySplit d1 ',').length < 2 then .error ()
       else if !isdigit ((pySplit d1 ',').getD 1 "") then .error ()
       else if (pySplit d1 ',').length < 3 then .error ()
       else
         match directionOfName ((pySplit d1 ',').getD 2 "") with
         | none => .error ()
         | some d =>
             .ok (.place ⟨(strToNat ((pySplit d1 ',').getD 0 "") : Int),
               (strToNat ((pySplit d1 ',').getD 1 "") : Int)⟩ d)) := rfl
  rw [hred]
  generalize pySplit d1 ',' = ps
  cases h1 : isdigit (ps.getD 0 "") with
  | false =>
      have hval : placeArgsAccepted ps = false := by
        simp only [placeArgsAccepted, h1, Bool.false_and]
      exact ⟨fun _ => by rw [if_pos (show (!false) = true from rfl)],
        fun htrue => by simp [hval] at htrue⟩
  | true =>
      by_cases h2 : ps.length < 2
      · have hval : placeArgsAccepted ps = false := by
          simp only [placeArgsAccepted,
            decide_eq_false (show ¬(2 ≤ ps.length) from by omega),
            Bool.and_false, Bool.false_and]
        exact ⟨fun _ => by rw [if_neg (by decide), if_pos h2],
          fun htrue => by simp [hval] at htrue⟩
      · cases h3 : isdigit (ps.getD 1 "") with
        | false =>
            have hval : placeArgsAccepted ps = false := by
              simp only [placeArgsAccepted, h3, Bool.and_false, Bool.false_and]
            exact ⟨fun _ => by
                rw [if_neg (by decide), if_neg h2, if_pos (show (!false) = true from rfl)],
              fun htrue => by simp [hval] at htrue⟩
        | true =>
            by_cases h4 : ps.length < 3
            · have hval : placeArgsAccepted ps = false := by
                simp only [placeArgsAccepted,
                  decide_eq_false (show ¬(3 ≤ ps.length) from by omega),
                  Bool.and_false, Bool.false_and]
              exact ⟨fun _ => by
                  rw [if_neg (by decide), if_neg h2, if_neg (by decide), if_pos h4],
                fun htrue => by simp [hval] at htrue⟩
            · cases hd : directionOfName (ps.getD 2 "") with
              | none =>
                  have hval : placeArgsAccepted ps = false := by
                    simp only [placeArgsAccepted, hd, Option.isSome_none, Bool.and_false]
                  exact ⟨fun _ => by
                      rw [if_neg (by decide), if_neg h2, if_neg (by decide), if_neg h4],
                    fun htrue => by simp [hval] at htrue⟩
              | some d =>
                  have hval : placeArgsAccepted ps = true := by
                    simp only [placeArgsAccepted, h1, h3, hd, Option.isSome_some,
                      decide_eq_true (show 2 ≤ ps.length from by omega),
                      decide_eq_true (show 3 ≤ ps.length from by omega),
                      Bool.and_true, Bool.true_and, Bool.and_self]
                  exact ⟨fun hfalse => by simp [hval] at hfalse,
                    fun _ => ⟨d, rfl, by
                      rw [if_neg (by decide), if_neg h2, if_neg (by decide), if_neg h4]⟩⟩

/-- C2 (amended): on a line of the form `PLACE <remainder>` (one single
space, so the split line is exactly `[PLACE, remainder]`), the parser
returns a Place command iff the remainder splits on commas into at least
three fields with the first two all-digits and the third a Direction member
name; extra fields after the third are ignored.  Any violation yields Nop. -/
theorem place_parse_spec (s rest : String)
    (hsplit : pySplit s ' ' = ["PLACE", rest]) :
    (placeArgsAccepted (pySplit rest ',') = false → generateCommand s = .nop) ∧
    (placeArgsAccepted (pySplit rest ',') = true →
      ∃ d, directionOfName ((pySplit rest ',').getD 2 "") = some d ∧
        generateCommand s = .place
          ⟨(strToNat ((pySplit rest ',').getD 0 "") : Int),
           (strToNat ((pySplit rest ',').getD 1 "") : Int)⟩ d) := by
  have hgc : generateCommand s =
      (match generatePlaceCommand ["PLACE", rest] with
       | .ok c => c
       | .error _ => .nop) := by
    unfold generateCommand
    rw [hsplit]
    rfl
  rw [hgc]
  obtain ⟨hfalse, htrue⟩ := generatePlaceCommand_pair "PLACE" rest
  constructor
  · intro h
    rw [hfalse h]
  · intro h
    obtain ⟨d, hd, heq⟩ := htrue h
    exact ⟨d, hd, by rw [heq]⟩

/-- Witness for the amended C2 theorem at the concrete line
`PLACE 1,2,NORTH`. -/
theorem place_parse_spec_witness :
    ∃ d, directionOfName ((pySplit "1,2,NORTH" ',').getD 2 "") = some d ∧
      generateCommand "PLACE 1,2,NORTH" = .place
        ⟨(strToNat ((pySplit "1,2,NORTH" ',').getD 0 "") : Int),
         (strToNat ((pySplit "1,2,NORTH" ',').getD 1 "") : Int)⟩ d :=
  (place_parse_spec "PLACE 1,2,NORTH" "1,2,NORTH" (by decide)).2 (by decide)

/-- The strings the parser accepts as one of the five command forms: a bare
`MOVE`, `LEFT`, `RIGHT` or `REPORT`, or `PLACE` followed (after one single
space) by a remainder whose comma-separated fields pass
`placeArgsAccepted`. -/
def acceptedCommand (s : String) : Bool :=
  let data := pySplit s ' '
  decide (data = ["MOVE"]) || decide (data = ["LEFT"]) || decide (data = ["RIGHT"]) ||
  decide (data = ["REPORT"]) ||
  (decide (data.length = 2) && decide (data.getD 0 "" = "PLACE") &&
    placeArgsAccepted (pySplit (data.getD 1 "") ','))

/-- C5: `generateCommand` is a total function, and it returns Nop exactly
on the strings that are not an accepted command form — unknown keywords and
the empty string included; no exception ever reaches the caller (every
generator error is caught and becomes Nop). -/
theorem generate_command_nop_iff (s : String) :
    generateCommand s = .nop ↔ acceptedCommand s = false := by
  unfold generateCommand acceptedCommand
  generalize pySplit s ' ' = data
  rcases data with _ | ⟨d0, _ | ⟨d1, rest2⟩⟩
  · decide
  · by_cases hP : d0 = "PLACE"
    · subst hP; decide
    · by_cases hM : d0 = "MOVE"
      · subst hM; decide
      · by_cases hL : d0 = "LEFT"
        · subst hL; decide
        · by_cases hR : d0 = "RIGHT"
          · subst hR; decide
          · by_cases hRe : d0 = "REPORT"
            · subst hRe; decide
            · simp [hP, hM, hL, hR, hRe]
  · by_cases hP : d0 = "PLACE"
    · subst hP
      by_cases hr : rest2 = []
      · subst hr
        obtain ⟨hfalse, htrue⟩ := generatePlaceCommand_pair "PLACE" d1
        cases hacc : placeArgsAccepted (pySplit d1 ',') with
        | false => simp [hfalse hacc, hacc]
        | true =>
            obtain ⟨d, hd, heq⟩ := htrue hacc
            simp [heq, hacc]
      · simp [hr, generatePlaceCommand, List.length_eq_zero]
    · by_cases hM : d0 = "MOVE"
      · subst hM; simp [generateMoveCommand]
      · by_cases hL : d0 = "LEFT"
        · subst hL; simp [generateTurnCommand]
        · by_cases hR : d0 = "RIGHT"
          · subst hR; simp [generateTurnCommand]
          · by_cases hRe : d0 = "REPORT"
            · subst hRe; simp [generateReportCommand]
            · simp [hP, hM, hL, hR, hRe]

/-- C7: for every in-range cell `(x, y)` of `SquareGrid(n)`,
`get_next_cell_coordinates` returns the adjacent coordinates in the queried
direction when that neighbour is on the grid, and `None` at the boundary —
`(x+1, y)` east (absent when `x+1 = n`), `(x-1, y)` west (absent when
`x = 0`), `(x, y+1)` north (absent when `y+1 = n`), `(x, y-1)` south
(absent when `y = 0`). -/
theorem get_next_cell_boundary_spec (n x y : Nat) (hx : x < n) (hy : y < n) :
    get_next_cell_coordinates n (gridOf n) ⟨(x : Int), (y : Int)⟩ .EAST =
      .ok (if x + 1 < n then some ⟨((x + 1 : Nat) : Int), (y : Int)⟩ else none) ∧
    get_next_cell_coordinates n (gridOf n) ⟨(x : Int), (y : Int)⟩ .WEST =
      .ok (if 1 ≤ x then some ⟨((x - 1 : Nat) : Int), (y : Int)⟩ else none) ∧
    get_next_cell_coordinates n (gridOf n) ⟨(x : Int), (y : Int)⟩ .NORTH =
      .ok (if y + 1 < n then some ⟨(x : Int), ((y + 1 : Nat) : Int)⟩ else none) ∧
    get_next_cell_coordinates n (gridOf n) ⟨(x : Int), (y : Int)⟩ .SOUTH =
      .ok (if 1 ≤ y then some ⟨(x : Int), ((y - 1 : Nat) : Int)⟩ else none) := by
  refine ⟨?_, ?_, ?_, ?_⟩ <;> rw [get_next_gridOf n x y hx hy] <;>
    simp only [neighboursSpec] <;> split_ifs <;> first | rfl | omega

/-- Witness for C7 on the 2×2 grid at the origin cell. -/
theorem get_next_cell_boundary_spec_witness :
    get_next_cell_coordinates 2 (gridOf 2) ⟨((0 : Nat) : Int), ((0 : Nat) : Int)⟩ .EAST =
      .ok (if 0 + 1 < 2 then some ⟨((0 + 1 : Nat) : Int), ((0 : Nat) : Int)⟩ else none) ∧
    get_next_cell_coordinates 2 (gridOf 2) ⟨((0 : Nat) : Int), ((0 : Nat) : Int)⟩ .WEST =
      .ok (if 1 ≤ 0 then some ⟨((0 - 1 : Nat) : Int), ((0 : Nat) : Int)⟩ else none) ∧
    get_next_cell_coordinates 2 (gridOf 2) ⟨((0 : Nat) : Int), ((0 : Nat) : Int)⟩ .NORTH =
      .ok (if 0 + 1 < 2 then some ⟨((0 : Nat) : Int), ((0 + 1 : Nat) : Int)⟩ else none) ∧
    get_next_cell_coordinates 2 (gridOf 2) ⟨((0 : Nat) : Int), ((0 : Nat) : Int)⟩ .SOUTH =
      .ok (if 1 ≤ 0 then some ⟨((0 : Nat) : Int), ((0 - 1 : Nat) : Int)⟩ else none) :=
  get_next_cell_boundary_spec 2 0 0 (by decide) (by decide)

/-- C8: link symmetry of the constructed grid — when the cell at in-range
coordinates `(x, y)` reports a neighbour `(a, b)` in direction `d`, the cell
at `(a, b)` reports `(x, y)` back in the opposite direction. -/
theorem link_symmetry (n x y : Nat) (hx : x < n) (hy : y < n) (d : Direction)
    (a b : Nat)
    (h : get_next_cell_coordinates n (gridOf n) ⟨(x : Int), (y : Int)⟩ d =
      .ok (some ⟨(a : Int), (b : Int)⟩)) :
    get_next_cell_coordinates n (gridOf n) ⟨(a : Int), (b : Int)⟩ d.opposite =
      .ok (some ⟨(x : Int), (y : Int)⟩) := by
  rw [get_next_gridOf n x y hx hy] at h
  have h2 : (neighboursSpec n x y d).map
      (fun p => (⟨(p.1 : Int), (p.2 : Int)⟩ : Coordinates)) = some ⟨(a : Int), (b : Int)⟩ := by
    injection h
  cases d with
  | EAST =>
      simp only [neighboursSpec] at h2
      split_ifs at h2 with hcond
      · simp only [Option.map_some', Option.some.injEq, Coordinates.mk.injEq,
          Nat.cast_inj] at h2
        obtain ⟨ha, hb⟩ := h2
        subst ha; subst hb
        rw [get_next_gridOf n (x + 1) y (by omega) hy]
        simp only [Direction.opposite, neighboursSpec]
        rw [if_pos (by omega)]
        simp
      · simp only [Option.map_none'] at h2; exact absurd h2 (by simp)
  | WEST =>
      simp only [neighboursSpec] at h2
      split_ifs at h2 with hcond
      · simp only [Option.map_some', Option.some.injEq, Coordinates.mk.injEq,
          Nat.cast_inj] at h2
        obtain ⟨ha, hb⟩ := h2
        subst ha; subst hb
        rw [get_next_gridOf n (x - 1) y (by omega) hy]
        simp only [Direction.opposite, neighboursSpec]
        rw [if_pos (by omega)]
        simp only [Except.ok.injEq, Option.map_some', Option.some.injEq,
          Coordinates.mk.injEq, Nat.cast_inj, and_true, true_and]
        omega
      · simp only [Option.map_none'] at h2; exact absurd h2 (by simp)
  | NORTH =>
      simp only [neighboursSpec] at h2
      split_ifs at h2 with hcond
      · simp only [Option.map_some', Option.some.injEq, Coordinates.mk.injEq,
          Nat.cast_inj] at h2
        obtain ⟨ha, hb⟩ := h2
        subst ha; subst hb
        rw [get_next_gridOf n x (y + 1) hx (by omega)]
        simp only [Direction.opposite, neighboursSpec]
        rw [if_pos (by omega)]
        simp
      · simp only [Option.map_none'] at h2; exact absurd h2 (by simp)
  | SOUTH =>
      simp only [neighboursSpec] at h2
      split_ifs at h2 with hcond
      · simp only [Option.map_some', Option.some.injEq, Coordinates.mk.injEq,
          Nat.cast_inj] at h2
        obtain ⟨ha, hb⟩ := h2
        subst ha; subst hb
        rw [get_next_gridOf n x (y - 1) hx (by omega)]
        simp only [Direction.opposite, neighboursSpec]
        rw [if_pos (by omega)]
        simp only [Except.ok.injEq, Option.map_some', Option.some.injEq,
          Coordinates.mk.injEq, Nat.cast_inj, and_true, true_and]
        omega
      · simp only [Option.map_none'] at h2; exact absurd h2 (by simp)

/-- Witness for C8 on the 2×2 grid: `(0,0) --EAST--> (1,0)` links back west. -/
theorem link_symmetry_witness :
    get_next_cell_coordinates 2 (gridOf 2) ⟨((1 : Nat) : Int), ((0 : Nat) : Int)⟩
      Direction.EAST.opposite = .ok (some ⟨((0 : Nat) : Int), ((0 : Nat) : Int)⟩) :=
  link_symmetry 2 0 0 (by decide) (by decide) .EAST 1 0 (by rfl)

lemma exceptBind_err {α β : Type} (e : Unit) (f : α → Except Unit β) :
    ((Except.error e : Except Unit α) >>= f) = Except.error e := rfl

/-- C3: executing Move returns `true` exactly when the robot is placed and
the grid reports a neighbour in its current direction, and then the robot
takes that neighbour's coordinates with its direction unchanged; a `false`
return leaves the state exactly as it was, and an unplaced robot fails
fast without consulting the grid. -/
theorem move_execute_spec (n : Nat) (m : NeighbourMap) (s : RobotState) :
    (∀ s2, executeCommand n m .move s = .ok (true, s2) ↔
      (is_on_grid s = true ∧ ∃ co d c2, s.coordinates = some co ∧ s.direction = some d ∧
        get_next_cell_coordinates n m co d = .ok (some c2) ∧ s2 = ⟨some c2, some d⟩)) ∧
    (∀ s2, executeCommand n m .move s = .ok (false, s2) → s2 = s) ∧
    (is_on_grid s = false → executeCommand n m .move s = .ok (false, s)) := by
  rcases s with ⟨sc, sd⟩
  rcases sc with _ | co
  · refine ⟨fun s2 => ?_, fun s2 h => ?_, fun _ => rfl⟩
    · simp [executeCommand, is_on_grid]
    · have h2 := h
      simp only [executeCommand, Except.ok.injEq, Prod.mk.injEq] at h2
      exact h2.2.symm
  · rcases sd with _ | d
    · refine ⟨fun s2 => ?_, fun s2 h => ?_, fun _ => rfl⟩
      · simp [executeCommand, is_on_grid]
      · have h2 := h
        simp only [executeCommand, Except.ok.injEq, Prod.mk.injEq] at h2
        exact h2.2.symm
    · have hred : executeCommand n m .move ⟨some co, some d⟩ =
        (get_next_cell_coordinates n m co d >>= fun r =>
          match r with
          | none => .ok (false, ⟨some co, some d⟩)
          | some c2 => .ok (true, ⟨some c2, some d⟩)) := rfl
      cases hg : get_next_cell_coordinates n m co d with
      | error e =>
          cases e
          refine ⟨fun s2 => ?_, fun s2 h => ?_, fun hfalse => ?_⟩
          · rw [hred, hg, exceptBind_err]
            constructor
            · intro h
              exact Except.noConfusion h
            · rintro ⟨-, co2, d2, c22, hco2, hd2, hnext, -⟩
              obtain rfl : co = co2 := by injection hco2
              obtain rfl : d = d2 := by injection hd2
              rw [hg] at hnext
              exact Except.noConfusion hnext
          · rw [hred, hg, exceptBind_err] at h
            exact Except.noConfusion h
          · simp [is_on_grid] at hfalse
      | ok r =>
          cases r with
          | none =>
              refine ⟨fun s2 => ?_, fun s2 h => ?_, fun hfalse => ?_⟩
              · rw [hred, hg, exceptBind_ok]
                constructor
                · intro h
                  simp only [Except.ok.injEq, Prod.mk.injEq] at h
                  exact absurd h.1 (by decide)
                · rintro ⟨-, co2, d2, c22, hco2, hd2, hnext, -⟩
                  obtain rfl : co = co2 := by injection hco2
                  obtain rfl : d = d2 := by injection hd2
                  rw [hg] at hnext
                  simp only [Except.ok.injEq] at hnext
                  exact Option.noConfusion hnext
              · rw [hred, hg, exceptBind_ok] at h
                simp only [Except.ok.injEq, Prod.mk.injEq] at h
                exact h.2.symm
              · simp [is_on_grid] at hfalse
          | some c2 =>
              refine ⟨fun s2 => ?_, fun s2 h => ?_, fun hfalse => ?_⟩
              · rw [hred, hg, exceptBind_ok]
                constructor
                · intro h
                  simp only [Except.ok.injEq, Prod.mk.injEq] at h
                  exact ⟨rfl, co, d, c2, rfl, rfl, hg, h.2.symm⟩
                · rintro ⟨-, co2, d2, c22, hco2, hd2, hnext, hs2⟩
                  obtain rfl : co = co2 := by injection hco2
                  obtain rfl : d = d2 := by injection hd2
                  rw [hg] at hnext
                  simp only [Except.ok.injEq, Option.some.injEq] at hnext
                  subst hnext
                  rw [hs2]
              · rw [hred, hg, exceptBind_ok] at h
                simp only [Except.ok.injEq, Prod.mk.injEq] at h
                exact absurd h.1 (by decide)
              · simp [is_on_grid] at hfalse

/-- C10: placedness is monotone — if the robot is on the grid and any of
the five commands executes to a result, the robot is still on the grid
afterwards; no command ever clears the coordinates or the direction. -/
theorem placedness_monotone (n : Nat) (m : NeighbourMap) (c : RobotCommand)
    (s : RobotState) (b : Bool) (s2 : RobotState)
    (hplaced : is_on_grid s = true)
    (hexec : executeCommand n m c s = .ok (b, s2)) :
    is_on_grid s2 = true := by
  rcases s with ⟨sc, sd⟩
  rcases sc with _ | co
  · simp [is_on_grid] at hplaced
  rcases sd with _ | d
  · simp [is_on_grid] at hplaced
  cases c with
  | nop =>
      simp only [executeCommand, Except.ok.injEq, Prod.mk.injEq] at hexec
      rw [← hexec.2]
      rfl
  | place co2 d2 =>
      cases hv : is_valid_cell n co2 <;>
        simp only [executeCommand, hv, if_true, if_false, Bool.false_eq_true,
          Except.ok.injEq, Prod.mk.injEq] at hexec <;>
        rw [← hexec.2] <;> rfl
  | move =>
      cases hg : get_next_cell_coordinates n m co d with
      | error e =>
          rw [show executeCommand n m .move ⟨some co, some d⟩ =
            (get_next_cell_coordinates n m co d >>= fun r =>
              match r with
              | none => .ok (false, ⟨some co, some d⟩)
              | some c2 => .ok (true, ⟨some c2, some d⟩)) from rfl, hg,
            exceptBind_err] at hexec
          exact Except.noConfusion hexec
      | ok r =>
          rw [show executeCommand n m .move ⟨some co, some d⟩ =
            (get_next_cell_coordinates n m co d >>= fun r =>
              match r with
              | none => .ok (false, ⟨some co, some d⟩)
              | some c2 => .ok (true, ⟨some c2, some d⟩)) from rfl, hg,
            exceptBind_ok] at hexec
          cases r with
          | none =>
              simp only [Except.ok.injEq, Prod.mk.injEq] at hexec
              rw [← hexec.2]
              rfl
          | some c2 =>
              simp only [Except.ok.injEq, Prod.mk.injEq] at hexec
              rw [← hexec.2]
              rfl
  | turn rot =>
      simp only [executeCommand, Except.ok.injEq, Prod.mk.injEq] at hexec
      rw [← hexec.2]
      rfl
  | report =>
      simp only [executeCommand, Except.ok.injEq, Prod.mk.injEq] at hexec
      rw [← hexec.2]
      rfl

lemma generatePlaceCommand_nonneg {data : List String} {c : RobotCommand}
    (h : generatePlaceCommand data = .ok c) :
    ∀ co d, c = .place co d → 0 ≤ co.x ∧ 0 ≤ co.y := by
  rcases data with _ | ⟨d0, _ | ⟨d1, _ | ⟨d2, more⟩⟩⟩
  · exact Except.noConfusion h
  · exact Except.noConfusion h
  · obtain ⟨hfalse, htrue⟩ := generatePlaceCommand_pair d0 d1
    cases hacc : placeArgsAccepted (pySplit d1 ',') with
    | false =>
        rw [hfalse hacc] at h
        exact Except.noConfusion h
    | true =>
        obtain ⟨d, hd, heq⟩ := htrue hacc
        rw [heq] at h
        simp only [Except.ok.injEq] at h
        subst h
        rintro co d2 hpl
        injection hpl with hco hd2
        rw [← hco]
        exact ⟨Int.natCast_nonneg _, Int.natCast_nonneg _⟩
  · exact Except.noConfusion h

lemma generateCommand_place_nonneg {raw : String} {co : Coordinates} {d : Direction}
    (h : generateCommand raw = .place co d) : 0 ≤ co.x ∧ 0 ≤ co.y := by
  have h2 : (match
      (if (pySplit raw ' ').getD 0 "" = "PLACE" then generatePlaceCommand (pySplit raw ' ')
       else if (pySplit raw ' ').getD 0 "" = "MOVE" then generateMoveCommand (pySplit raw ' ')
       else if (pySplit raw ' ').getD 0 "" = "LEFT" then generateTurnCommand (pySplit raw ' ')
       else if (pySplit raw ' ').getD 0 "" = "RIGHT" then generateTurnCommand (pySplit raw ' ')
       else if (pySplit raw ' ').getD 0 "" = "REPORT" then
         generateReportCommand (pySplit raw ' ')
       else .error ()) with
     | .ok c => c
     | .error _ => .nop) = .place co d := h
  clear h
  split at h2
  case h_2 => exact RobotCommand.noConfusion h2
  case h_1 c heq =>
    subst h2
    split at heq
    · exact generatePlaceCommand_nonneg heq co d rfl
    · unfold generateMoveCommand generateTurnCommand generateReportCommand at heq
      repeat' split at heq
      all_goals
        first
          | exact Except.noConfusion heq
          | (simp only [Except.ok.injEq] at heq
             exact RobotCommand.noConfusion heq.symm)

lemma executeCommand_parsed_inv {n : Nat} (raw : String) {s : RobotState}
    (hs : withinGrid n s = true) :
    ∃ b s2, executeCommand n (gridOf n) (generateCommand raw) s = .ok (b, s2) ∧
      withinGrid n s2 = true := by
  rcases s with ⟨sc, sd⟩
  cases hc : generateCommand raw with
  | nop => exact ⟨true, ⟨sc, sd⟩, rfl, hs⟩
  | report =>
      rcases sc with _ | co
      · exact ⟨false, _, rfl, hs⟩
      rcases sd with _ | d
      · exact ⟨false, _, rfl, hs⟩
      exact ⟨true, _, rfl, hs⟩
  | turn rot =>
      rcases sc with _ | co
      · exact ⟨false, _, rfl, hs⟩
      rcases sd with _ | d
      · exact ⟨false, _, rfl, hs⟩
      refine ⟨true, ⟨some co, some (if rot = .RIGHT then d.clockwise else d.counter_clockwise)⟩, rfl, ?_⟩
      simpa [withinGrid] using hs
  | place co d =>
      obtain ⟨hx0, hy0⟩ := generateCommand_place_nonneg hc
      cases hv : is_valid_cell n co
      · exact ⟨false, _, by simp [executeCommand, hv], hs⟩
      · refine ⟨true, ⟨some co, some d⟩, by simp [executeCommand, hv], ?_⟩
        simp only [is_valid_cell, Bool.and_eq_true, decide_eq_true_iff] at hv
        simp only [withinGrid, Bool.and_eq_true, decide_eq_true_iff]
        exact ⟨⟨hx0, hv.1⟩, ⟨hy0, hv.2⟩⟩
  | move =>
      rcases sc with _ | co
      · exact ⟨false, _, rfl, hs⟩
      rcases sd with _ | d
      · exact ⟨false, _, rfl, hs⟩
      obtain ⟨cx, cy⟩ := co
      simp only [withinGrid, Bool.and_eq_true, decide_eq_true_iff] at hs
      obtain ⟨⟨hx0, hxn⟩, hy0, hyn⟩ := hs
      obtain ⟨x, rfl⟩ : ∃ xn : Nat, cx = (xn : Int) := ⟨cx.toNat, (Int.toNat_of_nonneg hx0).symm⟩
      obtain ⟨y, rfl⟩ : ∃ yn : Nat, cy = (yn : Int) := ⟨cy.toNat, (Int.toNat_of_nonneg hy0).symm⟩
      have hx : x < n := by exact_mod_cast hxn
      have hy : y < n := by exact_mod_cast hyn
      have hred : executeCommand n (gridOf n) .move ⟨some ⟨(x : Int), (y : Int)⟩, some d⟩ =
          (get_next_cell_coordinates n (gridOf n) ⟨(x : Int), (y : Int)⟩ d >>= fun r =>
            match r with
            | none => .ok (false, ⟨some ⟨(x : Int), (y : Int)⟩, some d⟩)
            | some c2 => .ok (true, ⟨some c2, some d⟩)) := rfl
      rw [hred, get_next_gridOf n x y hx hy]
      cases hnn : neighboursSpec n x y d with
      | none =>
          refine ⟨false, ⟨some ⟨(x : Int), (y : Int)⟩, some d⟩, rfl, ?_⟩
          · simp only [withinGrid, Bool.and_eq_true, decide_eq_true_iff]
            exact ⟨⟨hx0, hxn⟩, hy0, hyn⟩
      | some p =>
          obtain ⟨a, b⟩ := p
          obtain ⟨ha, hb⟩ := neighboursSpec_range hnn
          refine ⟨true, ⟨some ⟨(a : Int), (b : Int)⟩, some d⟩, rfl, ?_⟩
          · simp only [withinGrid, Bool.and_eq_true, decide_eq_true_iff]
            refine ⟨⟨Int.natCast_nonneg a, ?_⟩, Int.natCast_nonneg b, ?_⟩
            · exact_mod_cast ha
            · exact_mod_cast hb

lemma runCommands_parsed_inv {n : Nat} (raws : List String) :
    ∀ s, withinGrid n s = true →
      ∃ s2, runCommands n (gridOf n) (raws.map generateCommand) s = .ok s2 ∧
        withinGrid n s2 = true := by
  induction raws with
  | nil => exact fun s hs => ⟨s, rfl, hs⟩
  | cons raw rest ih =>
      intro s hs
      obtain ⟨b, s1, hexec, hs1⟩ := executeCommand_parsed_inv raw hs
      obtain ⟨s2, hrun, hs2⟩ := ih s1 hs1
      refine ⟨s2, ?_, hs2⟩
      simp only [List.map_cons, runCommands, List.foldlM_cons, hexec, Except.map_ok,
        exceptBind_ok]
      exact hrun

/-- C9: running any list of parsed text commands from the unplaced initial
state on `SquareGrid(n)` never raises and leaves the robot unplaced or at
in-range coordinates; and whenever the robot is unplaced, Move, Turn and
Report each return `false` without touching the state or raising. -/
theorem parsed_commands_keep_robot_on_grid (n : Nat) (_hn : 0 < n)
    (raws : List String) :
    finishes (runCommands n (gridOf n) (raws.map generateCommand) initialRobot) = true ∧
    (∀ s2, runCommands n (gridOf n) (raws.map generateCommand) initialRobot = .ok s2 →
      withinGrid n s2 = true) ∧
    (∀ s, is_on_grid s = false →
      executeCommand n (gridOf n) .move s = .ok (false, s) ∧
      (∀ r, executeCommand n (gridOf n) (.turn r) s = .ok (false, s)) ∧
      executeCommand n (gridOf n) .report s = .ok (false, s)) := by
  obtain ⟨s2, hrun, hs2⟩ :=
    runCommands_parsed_inv raws initialRobot (show withinGrid n initialRobot = true from rfl)
  refine ⟨by rw [hrun]; rfl, fun s3 h3 => ?_, fun s hunplaced => ?_⟩
  · rw [hrun] at h3
    injection h3 with h4
    rw [← h4]
    exact hs2
  · rcases s with ⟨sc, sd⟩
    rcases sc with _ | co
    · exact ⟨rfl, fun r => rfl, rfl⟩
    rcases sd with _ | d
    · exact ⟨rfl, fun r => rfl, rfl⟩
    · simp [is_on_grid] at hunplaced

/-- Witness for C9 on the 1×1 grid with a concrete command list. -/
theorem parsed_commands_keep_robot_on_grid_witness :
    finishes (runCommands 1 (gridOf 1)
      (["PLACE 0,0,NORTH", "MOVE"].map generateCommand) initialRobot) = true ∧
    (∀ s2, runCommands 1 (gridOf 1)
        (["PLACE 0,0,NORTH", "MOVE"].map generateCommand) initialRobot = .ok s2 →
      withinGrid 1 s2 = true) ∧
    (∀ s, is_on_grid s = false →
      executeCommand 1 (gridOf 1) .move s = .ok (false, s) ∧
      (∀ r, executeCommand 1 (gridOf 1) (.turn r) s = .ok (false, s)) ∧
      executeCommand 1 (gridOf 1) .report s = .ok (false, s)) :=
  parsed_commands_keep_robot_on_grid 1 (by decide) ["PLACE 0,0,NORTH", "MOVE"]

/-- Witness for C3: a move on a one-cell grid whose (mock) neighbour map
always answers `(0, 0)` succeeds and lands there. -/
theorem move_execute_spec_witness :
    executeCommand 1 (fun _ _ _ => some (0, 0)) .move ⟨some ⟨0, 0⟩, some .NORTH⟩ =
      .ok (true, ⟨some ⟨0, 0⟩, some .NORTH⟩) :=
  ((move_execute_spec 1 (fun _ _ _ => some (0, 0)) ⟨some ⟨0, 0⟩, some .NORTH⟩).1
    ⟨some ⟨0, 0⟩, some .NORTH⟩).mpr
    ⟨rfl, ⟨0, 0⟩, .NORTH, ⟨0, 0⟩, rfl, rfl, rfl, rfl⟩

/-- Witness for C10 with a Nop command on a placed robot. -/
theorem placedness_monotone_witness :
    is_on_grid ⟨some ⟨0, 0⟩, some Direction.NORTH⟩ = true :=
  placedness_monotone 1 (fun _ _ _ => none) .nop ⟨some ⟨0, 0⟩, some .NORTH⟩ true
    ⟨some ⟨0, 0⟩, some .NORTH⟩ rfl rfl

end ToyRobot
